import Mathlib

/-!
Verification of the TemporalMaze simulation core.

The definitions below are a shallow embedding of the Python sources
src/game_enhanced/constants.py, src/game_enhanced/world.py and
src/game_enhanced/entities.py.  Python dicts with insertion order are
embedded as association lists or as functions into Option, Python sets as
Finset, machine integers as Int or Nat.  Rendering-only state (paw prints,
sprites, story messages, camera logic) is omitted; it is never read by the
game-state operations treated here.
-/


/-- Tile type codes, from constants.py (TILE_WALL .. TILE_TERMINAL). -/
inductive Tile
  | Wall | Floor | Switch | DoorClosed | DoorOpen | Exit
  | PortalA | PortalB | ItemKey | ItemPotion | Terminal
deriving DecidableEq, Repr

/-- Grid position, a pair of integer coordinates (x, y). -/
abbrev Pos := Int × Int

/-- MAX_HISTORY from constants.py. -/
def MAX_HISTORY : Nat := 100

/-- One value of the World.doors dict: required_switches set and is_open flag. -/
structure DoorData where
  required_switches : Finset Pos
  is_open : Bool
deriving DecidableEq

/-- Facing directions recorded in the player history ("up"/"down"/"left"/"right"). -/
inductive Facing
  | up | down | left | right
deriving DecidableEq, Repr

/-- One entry of Player.history: a dict with x, y and the facing direction. -/
structure HistEntry where
  x : Int
  y : Int
  direction : Facing
deriving DecidableEq, Repr

/--
The World object of game_enhanced/world.py.  The map is a function from
positions to tiles (the numpy grid), doors is the doors dict as an
association list in insertion order, switches holds the keys of the
switches dict (its values, lists of door positions, are never read by any
of the operations embedded here: update_doors iterates over all doors).
Terminals and the random story message they display are omitted.
-/
structure World where
  width : Int
  height : Int
  map : Pos → Tile
  player_start : Pos
  switches : Finset Pos
  doors : List (Pos × DoorData)
  portals : Pos → Option Pos
  items : Pos → Option Tile
  activated_switches : Finset Pos
  exit_pos : Option Pos
  level_completed : Bool

/-- Bounds test 0 <= y < height and 0 <= x < width used throughout world.py. -/
def inB (width height : Int) (p : Pos) : Bool :=
  decide (0 ≤ p.2) && decide (p.2 < height) && decide (0 ≤ p.1) && decide (p.1 < width)

/-- World.get_tile_at: tile at a position, Wall outside the map. -/
def World.get_tile_at (w : World) (p : Pos) : Tile :=
  if inB w.width w.height p then w.map p else Tile.Wall

/-- Lookup in the doors dict (doors.get((x, y)) in Python). -/
def World.doorGet (w : World) (p : Pos) : Option DoorData :=
  (w.doors.find? (fun d => decide (d.1 = p))).map Prod.snd

/-- The is_open flag of the door stored at a position, if any. -/
def World.doorIsOpen (w : World) (p : Pos) : Option Bool :=
  (w.doorGet p).map DoorData.is_open

/--
One iteration of the loop in World._update_doors: recompute is_open as
required_switches.issubset(activated_switches); when the flag changes,
store it and rewrite the map tile at the door position (when in bounds).
The state is the map so far together with the doors processed so far.
-/
def updateDoorEntry (activated : Finset Pos) (width height : Int)
    (st : (Pos → Tile) × List (Pos × DoorData)) (d : Pos × DoorData) :
    (Pos → Tile) × List (Pos × DoorData) :=
  let isOpenNew : Bool := decide (d.2.required_switches ⊆ activated)
  if d.2.is_open = isOpenNew then (st.1, st.2 ++ [d])
  else
    ((if inB width height d.1 then
        Function.update st.1 d.1 (if isOpenNew then Tile.DoorOpen else Tile.DoorClosed)
      else st.1),
     st.2 ++ [(d.1, ⟨d.2.required_switches, isOpenNew⟩)])

/-- World._update_doors: recompute every door from the active switches. -/
def World.update_doors (w : World) : World :=
  let r := w.doors.foldl (updateDoorEntry w.activated_switches w.width w.height) (w.map, [])
  { w with map := r.1, doors := r.2 }

/-- World.activate_switch: insert the position when it is a known, inactive
switch, then recompute the doors. -/
def World.activate_switch (w : World) (p : Pos) : World :=
  if p ∈ w.switches ∧ p ∉ w.activated_switches then
    World.update_doors { w with activated_switches := insert p w.activated_switches }
  else w

/-- World.deactivate_switch: remove the position when active, then recompute
the doors. -/
def World.deactivate_switch (w : World) (p : Pos) : World :=
  if p ∈ w.activated_switches then
    World.update_doors { w with activated_switches := w.activated_switches.erase p }
  else w

/-- World.open_door: when the position is a known door, set its is_open flag
and rewrite the tile to DoorOpen (when in bounds). -/
def World.open_door (w : World) (p : Pos) : World :=
  if p ∈ w.doors.map Prod.fst then
    { w with
      doors := w.doors.map (fun d =>
        if d.1 = p then (d.1, ⟨d.2.required_switches, true⟩) else d),
      map := if inB w.width w.height p then Function.update w.map p Tile.DoorOpen else w.map }
  else w

/-- World.get_paired_portal. -/
def World.get_paired_portal (w : World) (p : Pos) : Option Pos :=
  w.portals p

/-- World.remove_item: drop the dict entry and reset the tile to Floor. -/
def World.remove_item (w : World) (p : Pos) : World :=
  { w with
    items := Function.update w.items p none,
    map := if inB w.width w.height p then Function.update w.map p Tile.Floor else w.map }

/-- World.is_walkable. -/
def World.is_walkable (w : World) (p : Pos) : Bool :=
  let tile := w.get_tile_at p
  if tile = Tile.Floor ∨ tile = Tile.Switch ∨ tile = Tile.Exit ∨ tile = Tile.PortalA ∨
      tile = Tile.PortalB ∨ tile = Tile.ItemKey ∨ tile = Tile.ItemPotion ∨
      tile = Tile.Terminal then
    true
  else if tile = Tile.DoorClosed ∨ tile = Tile.DoorOpen then
    match w.doorGet p with
    | some dd => dd.is_open
    | none => false
  else false

/-- World.is_transparent: open doors are transparent, walls and closed doors
are not, every other tile is. -/
def World.is_transparent (w : World) (p : Pos) : Bool :=
  let tile := w.get_tile_at p
  if tile = Tile.DoorOpen then true
  else decide (tile ≠ Tile.Wall) && decide (tile ≠ Tile.DoorClosed)

/--
Level data in the tuple format accepted by World.load_from_data:
(level_map, player_start, switch_positions, door_positions, portals_data,
guard_positions, items_data, terminal_pos).  Guard positions and the
terminal are consumed elsewhere (entity construction, story text) and are
omitted here; item values are the tile codes of the items.
-/
structure LevelTuple where
  level_map : Pos → Tile
  width : Int
  height : Int
  player_start : Pos
  switch_positions : List Pos
  door_positions : List Pos
  portals_data : List (Pos × Pos)
  items_data : List (Pos × Tile)

/--
World.load_from_data on tuple-format level data.  Every switch position
becomes a key of the switches dict; every door position is stored with an
empty required_switches set and is_open = False (the loop that associates
switches with doors only fills the switch value lists, which are never
read); portal pairs are inserted in both directions.  The scan that looks
for an Exit tile only records redundant information (exit_pos) consulted
by no operation embedded here and is omitted.
-/
def World.load_from_data (w : World) (ld : LevelTuple) : World :=
  { w with
    map := ld.level_map,
    width := ld.width,
    height := ld.height,
    player_start := ld.player_start,
    switches := ld.switch_positions.toFinset,
    doors := w.doors ++ ld.door_positions.map (fun dp => (dp, ⟨(∅ : Finset Pos), false⟩)),
    portals := ld.portals_data.foldl
      (fun acc ab => Function.update (Function.update acc ab.1 (some ab.2)) ab.2 (some ab.1))
      w.portals,
    items := ld.items_data.foldl
      (fun acc it => Function.update acc it.1 (some it.2)) w.items }

/--
The Player of game_enhanced/entities.py.  Fields that only drive rendering
(paw prints, inventory, the dx/dy direction pair that mirrors facing) are
omitted; keys, energy, facing, position and the bounded history are kept.
-/
structure Player where
  x : Int
  y : Int
  keys : Nat
  energy : Int
  energy_max : Int
  facing : Facing
  history : List HistEntry
  history_limit : Nat
deriving DecidableEq, Repr

/-- Player.record_position: append the current position and facing unless it
equals the most recent recorded position; past history_limit drop index 0. -/
def Player.record_position (pl : Player) : Player :=
  let dup : Bool :=
    match pl.history.getLast? with
    | some e => decide ((pl.x, pl.y) = (e.x, e.y))
    | none => false
  if dup then pl
  else
    let h := pl.history ++ [⟨pl.x, pl.y, pl.facing⟩]
    { pl with history := if pl.history_limit < h.length then h.tail else h }

/--
The TimeClone of game_enhanced/entities.py: a frozen copy of a history
slice, a step cursor and the active flag.  The duplicated direction field
(always equal to facing) and the paw prints are omitted.
-/
structure TimeClone where
  x : Int
  y : Int
  history : List HistEntry
  current_step : Nat
  facing : Facing
  active : Bool
deriving DecidableEq, Repr

/-- TimeClone.__init__: position, copied history, cursor 0, facing from the
first history entry (right when the history is empty), active. -/
def TimeClone.init (x y : Int) (history : List HistEntry) : TimeClone :=
  { x := x, y := y, history := history, current_step := 0,
    facing := match history.head? with
      | some e => e.direction
      | none => Facing.right,
    active := true }

/-- Result of Player.time_travel, distinguished in the source by the failure
message shown for each early return. -/
inductive TTResult
  | success | noEnergy | invalidStepCount | noHistory
deriving DecidableEq, Repr

/--
Player.time_travel: refuse on empty energy; refuse steps outside
1 ≤ steps < len(history); slice history[:-steps]; refuse an empty slice;
otherwise build a clone at the first slice entry, append it to the clone
list of the game state and spend one energy unit.
-/
def Player.time_travel (pl : Player) (steps : Int) (clones : List TimeClone) :
    TTResult × Player × List TimeClone :=
  if pl.energy ≤ 0 then (TTResult.noEnergy, pl, clones)
  else if steps < 1 ∨ (pl.history.length : Int) ≤ steps then
    (TTResult.invalidStepCount, pl, clones)
  else
    match pl.history.take (pl.history.length - steps.toNat) with
    | [] => (TTResult.noHistory, pl, clones)
    | start :: rest =>
      (TTResult.success,
       { pl with energy := pl.energy - 1 },
       clones ++ [TimeClone.init start.x start.y (start :: rest)])

/-- Default history entry used to express list indexing (the source indexes
only inside the list, so the default is never read). -/
def dfltEntry : HistEntry := ⟨0, 0, Facing.right⟩

/--
TimeClone.update: when inactive or past the end, set inactive and report
False.  Otherwise read the next history entry, deactivate a switch under
the current tile, move, activate a switch under the new tile, advance the
cursor; at the end of the history set inactive and deactivate a switch
under the final tile, reporting False; otherwise report the active flag.
-/
def TimeClone.update (c : TimeClone) (w : World) : TimeClone × World × Bool :=
  if c.active = false ∨ c.history.length ≤ c.current_step then
    ({ c with active := false }, w, false)
  else
    let next := c.history.getD c.current_step dfltEntry
    let w1 := if w.get_tile_at (c.x, c.y) = Tile.Switch then
        w.deactivate_switch (c.x, c.y) else w
    let c1 := { c with facing := next.direction, x := next.x, y := next.y }
    let w2 := if w1.get_tile_at (c1.x, c1.y) = Tile.Switch then
        w1.activate_switch (c1.x, c1.y) else w1
    let c2 := { c1 with current_step := c1.current_step + 1 }
    if c2.history.length ≤ c2.current_step then
      let w3 := if w2.get_tile_at (c2.x, c2.y) = Tile.Switch then
          w2.deactivate_switch (c2.x, c2.y) else w2
      ({ c2 with active := false }, w3, false)
    else (c2, w2, c2.active)

/-- Iterated clone updates, threading the world through the calls (the game
loop calls update once per tick). -/
def TimeClone.updateN : TimeClone → World → Nat → TimeClone × World
  | c, w, 0 => (c, w)
  | c, w, n + 1 =>
    let r := c.update w
    TimeClone.updateN r.1 r.2.1 n

/-- The Bool reported by the next update call after k previous calls. -/
def nthUpdateActive (c : TimeClone) (w : World) (k : Nat) : Bool :=
  ((c.updateN w k).1.update (c.updateN w k).2).2.2

/-- The repeated step-off snippet of Player.move: deactivate a switch under
the current (pre-move) player tile. -/
def stepOffSwitch (pl : Player) (w : World) : World :=
  if w.get_tile_at (pl.x, pl.y) = Tile.Switch then w.deactivate_switch (pl.x, pl.y) else w

/-- The facing update at the top of Player.move: a nonzero delta sets the
visual facing from the delta signs, x axis first. -/
def faceToward (pl : Player) (dx dy : Int) : Player :=
  if dx ≠ 0 ∨ dy ≠ 0 then
    { pl with facing :=
        if 0 < dx then Facing.right
        else if dx < 0 then Facing.left
        else if 0 < dy then Facing.down
        else Facing.up }
  else pl

/--
Player.move: record the position, update facing, then resolve the step:
walkable targets interact (switch, exit, portal, items) and complete the
move after deactivating a switch under the old tile; a closed door at the
hard-coded key-door position (8, 1) opens when a key is held, consuming
it; anything else is blocked.  Returns the success flag together with the
updated player and world.
-/
def Player.move (pl0 : Player) (dx dy : Int) (w : World) : Bool × Player × World :=
  let pl := faceToward pl0.record_position dx dy
  let nx := pl.x + dx
  let ny := pl.y + dy
  let tile := w.get_tile_at (nx, ny)
  if w.is_walkable (nx, ny) then
    if tile = Tile.Switch then
      let w1 := w.activate_switch (nx, ny)
      (true, { pl with x := nx, y := ny }, stepOffSwitch pl w1)
    else if tile = Tile.Exit then
      (false, pl, { w with level_completed := true })
    else if tile = Tile.PortalA ∨ tile = Tile.PortalB then
      match w.get_paired_portal (nx, ny) with
      | some pp =>
        let w1 := stepOffSwitch pl w
        (true, ({ pl with x := pp.1, y := pp.2 } : Player).record_position, w1)
      | none =>
        (true, { pl with x := nx, y := ny }, stepOffSwitch pl w)
    else if tile = Tile.ItemKey then
      let plk := { pl with keys := pl.keys + 1 }
      let w1 := w.remove_item (nx, ny)
      (true, { plk with x := nx, y := ny }, stepOffSwitch plk w1)
    else if tile = Tile.ItemPotion then
      let ple := { pl with energy := min pl.energy_max (pl.energy + 1) }
      let w1 := w.remove_item (nx, ny)
      (true, { ple with x := nx, y := ny }, stepOffSwitch ple w1)
    else
      (true, { pl with x := nx, y := ny }, stepOffSwitch pl w)
  else if w.get_tile_at (nx, ny) = Tile.DoorClosed then
    if (nx, ny) = ((8 : Int), (1 : Int)) ∧ 0 < pl.keys then
      let w1 := w.open_door (nx, ny)
      (true, { pl with keys := pl.keys - 1, x := nx, y := ny }, stepOffSwitch pl w1)
    else (false, pl, w)
  else (false, pl, w)

/--
The Guard of game_enhanced/entities.py, restricted to the fields read by
the visibility predicate; the patrol and alert state machine fields are
not consulted by can_see_player.
-/
structure Guard where
  x : Int
  y : Int
  view_distance : Int
deriving DecidableEq, Repr

/-- The line scan of Guard._can_see_player: n consecutive tiles starting at
p, advancing by step, all transparent. -/
def scanTransparent (w : World) (p : Pos) (step : Pos) : Nat → Bool
  | 0 => true
  | n + 1 => w.is_transparent p && scanTransparent w (p.1 + step.1, p.2 + step.2) step n

/--
Guard._can_see_player.  The source compares math.sqrt of the squared
distance against view_distance; on the integer coordinates used here that
comparison is exact and equals the comparison of squared values, which is
how it is embedded.  Vertical or horizontal alignment is required and the
segment between guard and player is scanned inclusively; everything else
is invisible.
-/
def Guard.can_see_player (g : Guard) (w : World) (px py : Int) : Bool :=
  if g.view_distance ^ 2 < (px - g.x) ^ 2 + (py - g.y) ^ 2 then false
  else if g.x = px then
    scanTransparent w (g.x, min g.y py) (0, 1) ((max g.y py - min g.y py).toNat + 1)
  else if g.y = py then
    scanTransparent w (min g.x px, g.y) (1, 0) ((max g.x px - min g.x px).toNat + 1)
  else false

/-- Switch position S1 of the two-switch door scenario. -/
def S1 : Pos := (0, 0)

/-- Switch position S2 of the two-switch door scenario. -/
def S2 : Pos := (1, 0)

/-- Door position of the two-switch door scenario. -/
def DPos : Pos := (2, 0)

/-- A 3 by 1 world with switches S1, S2 and one door requiring both. -/
def exWorld : World :=
  { width := 3, height := 1,
    map := fun p => if p = DPos then Tile.DoorClosed else Tile.Switch,
    player_start := (0, 0),
    switches := {S1, S2},
    doors := [(DPos, ⟨{S1, S2}, false⟩)],
    portals := fun _ => none,
    items := fun _ => none,
    activated_switches := ∅,
    exit_pos := none,
    level_completed := false }

/--
The segment predicate of the specification wording: a tile lies on the
straight segment between guard and mover (both ends included) when the two
share a column and the tile sits on that column between their rows, or
they share a row and the tile sits on that row between their columns.
-/
def onSight (gx gy px py : Int) (q : Pos) : Prop :=
  (gx = px ∧ q.1 = gx ∧ min gy py ≤ q.2 ∧ q.2 ≤ max gy py) ∨
  (gy = py ∧ q.2 = gy ∧ min gx px ≤ q.1 ∧ q.1 ≤ max gx px)

/-- A 10 by 10 world that is all floor except a Wall at (5, 7). -/
def c8WallWorld : World :=
  { width := 10, height := 10,
    map := fun p => if p = ((5 : Int), (7 : Int)) then Tile.Wall else Tile.Floor,
    player_start := (1, 1), switches := ∅, doors := [],
    portals := fun _ => none, items := fun _ => none,
    activated_switches := ∅, exit_pos := none, level_completed := false }

/-- A 10 by 10 all-floor world. -/
def c8OpenWorld : World :=
  { width := 10, height := 10,
    map := fun _ => Tile.Floor,
    player_start := (1, 1), switches := ∅, doors := [],
    portals := fun _ => none, items := fun _ => none,
    activated_switches := ∅, exit_pos := none, level_completed := false }

/-- The clone-scenario player: four-entry history (1,1),(2,1),(2,2),(2,3). -/
def c2Player : Player :=
  { x := 2, y := 3, keys := 0, energy := 3, energy_max := 3, facing := Facing.right,
    history := [⟨1, 1, Facing.right⟩, ⟨2, 1, Facing.right⟩, ⟨2, 2, Facing.right⟩,
      ⟨2, 3, Facing.right⟩],
    history_limit := MAX_HISTORY }

/-- An all-floor 5 by 5 world used for clone replay. -/
def c2World : World :=
  { width := 5, height := 5, map := fun _ => Tile.Floor, player_start := (1, 1),
    switches := ∅, doors := [], portals := fun _ => none, items := fun _ => none,
    activated_switches := ∅, exit_pos := none, level_completed := false }

/-- Tile consistency of one door entry against a map: an in-bounds door tile
shows DoorOpen or DoorClosed according to its is_open flag. -/
def doorTileOk (width height : Int) (m : Pos → Tile) (d : Pos × DoorData) : Prop :=
  inB width height d.1 = true →
    m d.1 = (if d.2.is_open then Tile.DoorOpen else Tile.DoorClosed)

/-- The door invariant: every stored door has is_open equal to the subset
test of its required switches against the active set, and a consistent
tile. -/
def World.doorInv (w : World) : Prop :=
  ∀ d ∈ w.doors,
    d.2.is_open = decide (d.2.required_switches ⊆ w.activated_switches) ∧
    doorTileOk w.width w.height w.map d

instance (width height : Int) (m : Pos → Tile) (d : Pos × DoorData) :
    Decidable (doorTileOk width height m d) := by
  unfold doorTileOk
  infer_instance

instance (w : World) : Decidable w.doorInv := by
  unfold World.doorInv
  infer_instance

/-- The freshly constructed World of world.py before a level is loaded (the
unloaded numpy map is embedded as an all-Floor function; it is never read
before load_from_data replaces it). -/
def emptyWorld : World :=
  { width := 0, height := 0,
    map := fun _ => Tile.Floor,
    player_start := (1, 1),
    switches := ∅, doors := [],
    portals := fun _ => none, items := fun _ => none,
    activated_switches := ∅, exit_pos := none, level_completed := false }

/-- Concrete tuple-format level data: one switch at S1, one door at DPos. -/
def exTuple : LevelTuple :=
  { level_map := fun p =>
      if p = DPos then Tile.DoorClosed else if p = S1 then Tile.Switch else Tile.Floor,
    width := 3, height := 1, player_start := (0, 0),
    switch_positions := [S1],
    door_positions := [DPos],
    portals_data := [], items_data := [] }

/-- No two consecutive history entries share a position. -/
def noConsecDup (h : List HistEntry) : Prop :=
  List.Chain' (fun a b => (a.x, a.y) ≠ (b.x, b.y)) h

instance (h : List HistEntry) : Decidable (noConsecDup h) :=
  inferInstanceAs
    (Decidable (List.Chain' (fun a b : HistEntry => (a.x, a.y) ≠ (b.x, b.y)) h))

/-- A concrete player one step away from its last recorded position. -/
def c6Player : Player :=
  { x := 1, y := 0, keys := 0, energy := 3, energy_max := 3, facing := Facing.right,
    history := [⟨0, 0, Facing.right⟩], history_limit := MAX_HISTORY }

/-- A 5 by 1 world with one registered switch at (3, 0) and no doors. -/
def c10World : World :=
  { width := 5, height := 1,
    map := fun p => if p = ((3 : Int), (0 : Int)) then Tile.Switch else Tile.Floor,
    player_start := (0, 0),
    switches := {((3 : Int), (0 : Int))},
    doors := [],
    portals := fun _ => none, items := fun _ => none,
    activated_switches := ∅, exit_pos := none, level_completed := false }

/-- A clone whose single remaining path entry is the switch tile. -/
def c10Clone : TimeClone :=
  TimeClone.init 2 0 [⟨3, 0, Facing.right⟩]

/-- The stored door at a position is absent or has its is_open flag off. -/
def doorClosedAt (w : World) (p : Pos) : Bool :=
  match w.doorGet p with
  | some dd => !dd.is_open
  | none => true

/-- A world whose only door is the closed key door at (8, 1). -/
def c9World : World :=
  { width := 10, height := 3,
    map := fun p => if p = ((8 : Int), (1 : Int)) then Tile.DoorClosed else Tile.Floor,
    player_start := (1, 1),
    switches := ∅,
    doors := [(((8 : Int), (1 : Int)), ⟨{((0 : Int), (0 : Int))}, false⟩)],
    portals := fun _ => none, items := fun _ => none,
    activated_switches := ∅, exit_pos := none, level_completed := false }

/-- A keyless player standing directly left of the key door. -/
def c9Player : Player :=
  { x := 7, y := 1, keys := 0, energy := 3, energy_max := 3, facing := Facing.right,
    history := [], history_limit := MAX_HISTORY }

/-- The concrete two-entry clone of the replay scenario. -/
def c7Clone : TimeClone :=
  TimeClone.init 1 1 [⟨1, 1, Facing.right⟩, ⟨2, 1, Facing.right⟩]

/-- A player with no energy, showing a failing and a succeeding call. -/
def c3Player : Player :=
  { c2Player with energy := 0 }

/-! Properties.  Helper lemmas first, then for each claim its theorem
together with the concrete counterexamples and witnesses. -/

example : (exWorld.activate_switch S1).doorIsOpen DPos = some false := by decide

example : ((exWorld.activate_switch S1).activate_switch S2).doorIsOpen DPos = some true := by decide

example :
    (((exWorld.activate_switch S1).activate_switch S2).deactivate_switch S1).doorIsOpen DPos
      = some false := by decide

example :
    ((exWorld.activate_switch S1).activate_switch S2).get_tile_at DPos = Tile.DoorOpen := by
  decide

/-- One door-update iteration never writes tiles away from its own door. -/
lemma updateDoorEntry_fst_off (act : Finset Pos) (W H : Int)
    (st : (Pos → Tile) × List (Pos × DoorData)) (d : Pos × DoorData) (q : Pos)
    (hq : q ≠ d.1) : (updateDoorEntry act W H st d).1 q = st.1 q := by
  unfold updateDoorEntry
  dsimp only
  split
  · rfl
  · dsimp only
    split
    · exact Function.update_noteq hq _ _
    · rfl

/-- The tile an iteration leaves at its own door position. -/
lemma updateDoorEntry_fst_at (act : Finset Pos) (W H : Int)
    (st : (Pos → Tile) × List (Pos × DoorData)) (d : Pos × DoorData) :
    (updateDoorEntry act W H st d).1 d.1 =
      if d.2.is_open = decide (d.2.required_switches ⊆ act) then st.1 d.1
      else if inB W H d.1 then
        (if decide (d.2.required_switches ⊆ act) then Tile.DoorOpen else Tile.DoorClosed)
      else st.1 d.1 := by
  unfold updateDoorEntry
  dsimp only
  split
  case isTrue h => rfl
  case isFalse h =>
    dsimp only
    split
    case isTrue hb => exact Function.update_same _ _ _
    case isFalse hb => rfl

/-- Each iteration appends its door with the freshly computed flag. -/
lemma updateDoorEntry_snd (act : Finset Pos) (W H : Int)
    (st : (Pos → Tile) × List (Pos × DoorData)) (d : Pos × DoorData) :
    (updateDoorEntry act W H st d).2 =
      st.2 ++ [(d.1, ⟨d.2.required_switches, decide (d.2.required_switches ⊆ act)⟩)] := by
  obtain ⟨dp, req, op⟩ := d
  unfold updateDoorEntry
  dsimp only
  split
  case isTrue h => rw [h]
  case isFalse h => rfl

/-- The fold leaves the map unchanged away from the processed doors. -/
lemma foldl_doors_fst_off (act : Finset Pos) (W H : Int) :
    ∀ (ds : List (Pos × DoorData)) (m : Pos → Tile) (acc : List (Pos × DoorData)) (q : Pos),
      q ∉ ds.map Prod.fst →
      (ds.foldl (updateDoorEntry act W H) (m, acc)).1 q = m q := by
  intro ds
  induction ds with
  | nil => intro m acc q _; rfl
  | cons d0 rest ih =>
    intro m acc q hq
    simp only [List.map_cons, List.mem_cons, not_or] at hq
    obtain ⟨hq1, hq2⟩ := hq
    rw [List.foldl_cons]
    calc (rest.foldl (updateDoorEntry act W H) (updateDoorEntry act W H (m, acc) d0)).1 q
        = (updateDoorEntry act W H (m, acc) d0).1 q :=
          ih (updateDoorEntry act W H (m, acc) d0).1
            (updateDoorEntry act W H (m, acc) d0).2 q hq2
      _ = m q := updateDoorEntry_fst_off act W H (m, acc) d0 q hq1

/-- The doors list the fold produces: every door keeps its required set and
gets the recomputed is_open flag, in order. -/
lemma foldl_doors_snd (act : Finset Pos) (W H : Int) :
    ∀ (ds : List (Pos × DoorData)) (m : Pos → Tile) (acc : List (Pos × DoorData)),
      (ds.foldl (updateDoorEntry act W H) (m, acc)).2 =
        acc ++ ds.map (fun d =>
          (d.1, ⟨d.2.required_switches, decide (d.2.required_switches ⊆ act)⟩)) := by
  intro ds
  induction ds with
  | nil => intro m acc; simp
  | cons d0 rest ih =>
    intro m acc
    rw [List.foldl_cons]
    calc (rest.foldl (updateDoorEntry act W H) (updateDoorEntry act W H (m, acc) d0)).2
        = (updateDoorEntry act W H (m, acc) d0).2 ++ rest.map (fun d =>
            (d.1, ⟨d.2.required_switches, decide (d.2.required_switches ⊆ act)⟩)) :=
          ih (updateDoorEntry act W H (m, acc) d0).1 (updateDoorEntry act W H (m, acc) d0).2
      _ = _ := by rw [updateDoorEntry_snd]; simp [List.append_assoc]

/-- The tile the fold leaves at a processed door position, when the door
keys are distinct. -/
lemma foldl_doors_fst_at (act : Finset Pos) (W H : Int) :
    ∀ (ds : List (Pos × DoorData)) (m : Pos → Tile) (acc : List (Pos × DoorData)),
      (ds.map Prod.fst).Nodup →
      ∀ d ∈ ds,
        (ds.foldl (updateDoorEntry act W H) (m, acc)).1 d.1 =
          if d.2.is_open = decide (d.2.required_switches ⊆ act) then m d.1
          else if inB W H d.1 then
            (if decide (d.2.required_switches ⊆ act) then Tile.DoorOpen else Tile.DoorClosed)
          else m d.1 := by
  intro ds
  induction ds with
  | nil => intro m acc _ d hd; cases hd
  | cons d0 rest ih =>
    intro m acc hnd d hd
    simp only [List.map_cons, List.nodup_cons] at hnd
    obtain ⟨h0, hndr⟩ := hnd
    rw [List.foldl_cons]
    rcases List.mem_cons.mp hd with rfl | hdr
    · rw [foldl_doors_fst_off act W H rest _ _ _ h0, updateDoorEntry_fst_at]
    · have hne : d.1 ≠ d0.1 := by
        intro he
        exact h0 (he ▸ List.mem_map_of_mem Prod.fst hdr)
      rw [ih (updateDoorEntry act W H (m, acc) d0).1
            (updateDoorEntry act W H (m, acc) d0).2 hndr d hdr,
          updateDoorEntry_fst_off act W H (m, acc) d0 d.1 hne]

/-- update_doors leaves the active switch set unchanged. -/
lemma update_doors_activated (w : World) :
    w.update_doors.activated_switches = w.activated_switches := rfl

/-- The doors list after update_doors. -/
lemma update_doors_doors (w : World) :
    w.update_doors.doors = w.doors.map (fun d =>
      (d.1, ⟨d.2.required_switches,
        decide (d.2.required_switches ⊆ w.activated_switches)⟩)) := by
  show (w.doors.foldl (updateDoorEntry w.activated_switches w.width w.height) (w.map, [])).2 = _
  rw [foldl_doors_snd]
  exact List.nil_append _

/-- update_doors keeps the door keys. -/
lemma update_doors_keys (w : World) :
    w.update_doors.doors.map Prod.fst = w.doors.map Prod.fst := by
  rw [update_doors_doors, List.map_map]
  rfl

/-- update_doors never writes tiles away from the door positions. -/
lemma update_doors_map_off (w : World) (q : Pos) (hq : q ∉ w.doors.map Prod.fst) :
    w.update_doors.map q = w.map q := by
  show (w.doors.foldl (updateDoorEntry w.activated_switches w.width w.height) (w.map, [])).1 q
    = w.map q
  exact foldl_doors_fst_off _ _ _ _ _ _ _ hq

/-- After update_doors, given distinct door keys and tile consistency
before, the whole door invariant holds for the current active set. -/
lemma update_doors_doorInv (w : World) (hnd : (w.doors.map Prod.fst).Nodup)
    (hpre : ∀ d ∈ w.doors, doorTileOk w.width w.height w.map d) :
    w.update_doors.doorInv := by
  intro d' hd'
  rw [update_doors_doors] at hd'
  obtain ⟨d, hd, rfl⟩ := List.mem_map.mp hd'
  refine ⟨rfl, ?_⟩
  intro hb
  have hb' : inB w.width w.height d.1 = true := hb
  have hmap : w.update_doors.map d.1 =
      (w.doors.foldl (updateDoorEntry w.activated_switches w.width w.height) (w.map, [])).1 d.1 :=
    rfl
  show w.update_doors.map d.1 = _
  rw [hmap, foldl_doors_fst_at w.activated_switches w.width w.height w.doors w.map [] hnd d hd]
  by_cases h : d.2.is_open = decide (d.2.required_switches ⊆ w.activated_switches)
  · rw [if_pos h, hpre d hd hb', h]
  · rw [if_neg h, if_pos hb']

/-- activate_switch preserves the door invariant. -/
lemma activate_switch_doorInv (w : World) (p : Pos)
    (hnd : (w.doors.map Prod.fst).Nodup) (hinv : w.doorInv) :
    (w.activate_switch p).doorInv := by
  unfold World.activate_switch
  split
  · exact update_doors_doorInv _ hnd (fun d hd => (hinv d hd).2)
  · exact hinv

/-- deactivate_switch preserves the door invariant. -/
lemma deactivate_switch_doorInv (w : World) (p : Pos)
    (hnd : (w.doors.map Prod.fst).Nodup) (hinv : w.doorInv) :
    (w.deactivate_switch p).doorInv := by
  unfold World.deactivate_switch
  split
  · exact update_doors_doorInv _ hnd (fun d hd => (hinv d hd).2)
  · exact hinv

example : exWorld.doorInv := by decide

/-- open_door does not touch the switch registry. -/
lemma open_door_switches (w : World) (p : Pos) : (w.open_door p).switches = w.switches := by
  unfold World.open_door
  split <;> rfl

/-- open_door does not touch the active switch set. -/
lemma open_door_activated (w : World) (p : Pos) :
    (w.open_door p).activated_switches = w.activated_switches := by
  unfold World.open_door
  split <;> rfl

/--
C1: for switch-controlled doors, immediately after any call to
activate_switch or deactivate_switch every stored door has is_open equal
to the subset test of its required switches against the active set, with
the tile rewritten to DoorOpen or DoorClosed accordingly; and in the
two-switch scenario the door opens exactly when both switches are active.
(The source stores no lock kind: update_doors recomputes every door.)
-/
theorem c1_switch_door_invariant (w : World) (p : Pos)
    (hnd : (w.doors.map Prod.fst).Nodup) (hinv : w.doorInv) :
    ((w.activate_switch p).doorInv ∧ (w.deactivate_switch p).doorInv) ∧
    ((exWorld.activate_switch S1).doorIsOpen DPos = some false ∧
     ((exWorld.activate_switch S1).activate_switch S2).doorIsOpen DPos = some true ∧
     ((exWorld.activate_switch S1).activate_switch S2).get_tile_at DPos = Tile.DoorOpen ∧
     (((exWorld.activate_switch S1).activate_switch S2).deactivate_switch S1).doorIsOpen DPos
       = some false ∧
     (((exWorld.activate_switch S1).activate_switch S2).deactivate_switch S1).get_tile_at DPos
       = Tile.DoorClosed) :=
  ⟨⟨activate_switch_doorInv w p hnd hinv, deactivate_switch_doorInv w p hnd hinv⟩,
   by decide, by decide, by decide, by decide, by decide⟩

/-- Witness for C1 at the concrete two-switch world. -/
theorem c1_witness :
    (exWorld.doors.map Prod.fst).Nodup ∧ exWorld.doorInv ∧
    ((exWorld.activate_switch S1).doorInv ∧ (exWorld.deactivate_switch S1).doorInv) :=
  ⟨by decide, by decide, (c1_switch_door_invariant exWorld S1 (by decide) (by decide)).1⟩

/--
C4 counterexample: a door opened with open_door is closed again by a later
switch operation.  In exWorld the door requires both switches; opening it
with the key and then activating S1 alone triggers update_doors, which
recomputes is_open to false and rewrites the tile to DoorClosed.
-/
theorem c4_counterexample :
    ((exWorld.open_door DPos).doorIsOpen DPos = some true ∧
     (exWorld.open_door DPos).get_tile_at DPos = Tile.DoorOpen) ∧
    ((exWorld.open_door DPos).activate_switch S1).doorIsOpen DPos = some false ∧
    ((exWorld.open_door DPos).activate_switch S1).get_tile_at DPos = Tile.DoorClosed := by
  decide

/--
C4 amended: open_door unconditionally opens the stored door and rewrites
its tile, but the door is not protected afterwards: any later switch
activation that fires the recomputation resets every stored is_open flag,
including that of the key-opened door, to the subset test against the new
active set, so the door stays open only while its requirement set is
satisfied.
-/
theorem c4_amended_key_door (w : World) (p : Pos) (hp : p ∈ w.doors.map Prod.fst) :
    (∀ d ∈ (w.open_door p).doors, d.1 = p → d.2.is_open = true) ∧
    (inB w.width w.height p = true → (w.open_door p).get_tile_at p = Tile.DoorOpen) ∧
    (∀ q, q ∈ w.switches → q ∉ w.activated_switches →
      ∀ d ∈ ((w.open_door p).activate_switch q).doors,
        d.2.is_open = decide (d.2.required_switches ⊆ insert q w.activated_switches)) := by
  refine ⟨?_, ?_, ?_⟩
  · intro d hd hd1
    unfold World.open_door at hd
    rw [if_pos hp] at hd
    simp only at hd
    obtain ⟨d0, _, rfl⟩ := List.mem_map.mp hd
    by_cases h0 : d0.1 = p
    · rw [if_pos h0]
    · rw [if_neg h0] at hd1 ⊢
      exact absurd hd1 h0
  · intro hb
    unfold World.open_door
    rw [if_pos hp]
    show (if inB w.width w.height p then _ else Tile.Wall) = Tile.DoorOpen
    rw [if_pos hb]
    show (if inB w.width w.height p then Function.update w.map p Tile.DoorOpen else w.map) p = _
    rw [if_pos hb, Function.update_same]
  · intro q hq hqa d hd
    have hcond : q ∈ (w.open_door p).switches ∧ q ∉ (w.open_door p).activated_switches := by
      rw [open_door_switches, open_door_activated]
      exact ⟨hq, hqa⟩
    unfold World.activate_switch at hd
    rw [if_pos hcond, update_doors_doors] at hd
    obtain ⟨d0, _, rfl⟩ := List.mem_map.mp hd
    show decide _ = decide _
    rw [show ({ w.open_door p with
        activated_switches := insert q (w.open_door p).activated_switches } : World).activated_switches
      = insert q w.activated_switches by rw [open_door_activated]]

/-- Witness for the amended C4 at the concrete two-switch world. -/
theorem c4_witness :
    DPos ∈ exWorld.doors.map Prod.fst ∧
    (∀ d ∈ (exWorld.open_door DPos).doors, d.1 = DPos → d.2.is_open = true) ∧
    (inB exWorld.width exWorld.height DPos = true →
      (exWorld.open_door DPos).get_tile_at DPos = Tile.DoorOpen) ∧
    (∀ q, q ∈ exWorld.switches → q ∉ exWorld.activated_switches →
      ∀ d ∈ ((exWorld.open_door DPos).activate_switch q).doors,
        d.2.is_open = decide (d.2.required_switches ⊆ insert q exWorld.activated_switches)) :=
  ⟨by decide, c4_amended_key_door exWorld DPos (by decide)⟩

/--
C5 counterexample: tuple-format level loading accepts the door and stores
it with an empty required_switches set (there is no rejection and no
reclassification; the source has no lock-kind field at all), and the
subset rule then treats the door as open: activating the single unrelated
switch opens it.
-/
theorem c5_counterexample :
    (emptyWorld.load_from_data exTuple).doors = [(DPos, ⟨∅, false⟩)] ∧
    ((emptyWorld.load_from_data exTuple).activate_switch S1).doorIsOpen DPos = some true := by
  decide

/--
C5 amended: level loading performs no validation: every door added by
tuple-format load_from_data is stored with an empty required_switches set
and is_open = false, so after a load such switch-governed doors do exist
and the subset rule treats their requirement as satisfied.
-/
theorem c5_amended_no_validation (w : World) (ld : LevelTuple) :
    ∀ d ∈ (w.load_from_data ld).doors, d ∉ w.doors →
      d.2.required_switches = ∅ ∧ d.2.is_open = false := by
  intro d hd hnotin
  unfold World.load_from_data at hd
  simp only at hd
  rw [List.mem_append] at hd
  rcases hd with h | h
  · exact absurd h hnotin
  · obtain ⟨dp, _, rfl⟩ := List.mem_map.mp h
    exact ⟨rfl, rfl⟩

/-- record_position is the identity when the current position equals the
most recently recorded one. -/
lemma record_position_dup (pl : Player) (e : HistEntry) (hl : pl.history.getLast? = some e)
    (he : (pl.x, pl.y) = (e.x, e.y)) : pl.record_position = pl := by
  unfold Player.record_position
  rw [hl]
  simp [he]

/-- record_position otherwise appends the current state, dropping the front
entry past the limit. -/
lemma record_position_app (pl : Player)
    (hdup : ∀ e, pl.history.getLast? = some e → (pl.x, pl.y) ≠ (e.x, e.y)) :
    pl.record_position.history =
      if pl.history_limit < (pl.history ++ [(⟨pl.x, pl.y, pl.facing⟩ : HistEntry)]).length
      then (pl.history ++ [(⟨pl.x, pl.y, pl.facing⟩ : HistEntry)]).tail
      else pl.history ++ [(⟨pl.x, pl.y, pl.facing⟩ : HistEntry)] := by
  unfold Player.record_position
  rcases hl : pl.history.getLast? with _ | e
  · simp
  · have := hdup e hl
    simp [this]

/--
C6: record_position preserves the history invariant: no two consecutive
entries with equal position and length at most MAX_HISTORY (overflow
evicts index 0); a call whose position equals the most recent entry
appends nothing.
-/
theorem c6_history_invariant (pl : Player) (hlim : pl.history_limit = MAX_HISTORY)
    (hchain : noConsecDup pl.history) (hlen : pl.history.length ≤ MAX_HISTORY) :
    noConsecDup pl.record_position.history ∧
    pl.record_position.history.length ≤ MAX_HISTORY ∧
    (∀ e, pl.history.getLast? = some e → (pl.x, pl.y) = (e.x, e.y) →
      pl.record_position.history = pl.history) := by
  by_cases hdup : ∃ e, pl.history.getLast? = some e ∧ (pl.x, pl.y) = (e.x, e.y)
  · obtain ⟨e, hl, he⟩ := hdup
    rw [record_position_dup pl e hl he]
    exact ⟨hchain, hlen, fun _ _ _ => rfl⟩
  · push_neg at hdup
    have happ := record_position_app pl hdup
    have hch : noConsecDup (pl.history ++ [(⟨pl.x, pl.y, pl.facing⟩ : HistEntry)]) := by
      unfold noConsecDup
      rw [List.chain'_append]
      refine ⟨hchain, List.chain'_singleton _, ?_⟩
      intro a ha b hb
      cases hl : pl.history.getLast? with
      | none => rw [hl] at ha; cases ha
      | some eLast =>
        rw [hl] at ha
        have ha2 : a = eLast := by cases ha; rfl
        have hb2 : b = ⟨pl.x, pl.y, pl.facing⟩ := by cases hb; rfl
        subst ha2
        subst hb2
        have hne := hdup _ hl
        intro hc
        exact hne hc.symm
    refine ⟨?_, ?_, ?_⟩
    · rw [happ]
      split
      · exact List.Chain'.tail hch
      · exact hch
    · rw [happ]
      split
      next h =>
        rw [hlim] at h
        simp only [List.length_tail, List.length_append, List.length_singleton]
        simp only [List.length_append, List.length_singleton] at h
        omega
      next h =>
        rw [hlim] at h
        simp only [List.length_append, List.length_singleton] at h ⊢
        omega
    · intro e hl he
      exact absurd he (hdup e hl)

/-- Witness for C6 at the concrete player. -/
theorem c6_witness :
    (c6Player.history_limit = MAX_HISTORY ∧ noConsecDup c6Player.history ∧
      c6Player.history.length ≤ MAX_HISTORY) ∧
    (noConsecDup c6Player.record_position.history ∧
     c6Player.record_position.history.length ≤ MAX_HISTORY) :=
  ⟨⟨by decide, List.chain'_singleton _, by decide⟩,
   (c6_history_invariant c6Player (by decide) (List.chain'_singleton _) (by decide)).1,
   (c6_history_invariant c6Player (by decide) (List.chain'_singleton _) (by decide)).2.1⟩

/--
C2: time_travel succeeds only for 1 ≤ steps < len(history), and the clone
then replays the slice history[:-steps], everything except the most
recent steps entries, starting at the first slice entry; plus the
concrete scenario of the specification, where the two-step clone from a
four-entry history stops at (2, 1) after two updates and reports
inactive.
-/
theorem c2_clone_path (pl : Player) (steps : Int) (clones : List TimeClone)
    (hs : (pl.time_travel steps clones).1 = TTResult.success) :
    ((1 ≤ steps ∧ steps < (pl.history.length : Int)) ∧
     ∃ c, (pl.time_travel steps clones).2.2 = clones ++ [c] ∧
       c.history = pl.history.take (pl.history.length - steps.toNat) ∧
       c.current_step = 0 ∧ c.active = true ∧
       (∀ e, c.history.head? = some e → c.x = e.x ∧ c.y = e.y)) ∧
    ((c2Player.time_travel 2 []).1 = TTResult.success ∧
     (c2Player.time_travel 2 []).2.2 =
       [TimeClone.init 1 1 [⟨1, 1, Facing.right⟩, ⟨2, 1, Facing.right⟩]] ∧
     ((TimeClone.init 1 1
        [⟨1, 1, Facing.right⟩, ⟨2, 1, Facing.right⟩]).updateN c2World 2).1.x = 2 ∧
     ((TimeClone.init 1 1
        [⟨1, 1, Facing.right⟩, ⟨2, 1, Facing.right⟩]).updateN c2World 2).1.y = 1 ∧
     ((TimeClone.init 1 1
        [⟨1, 1, Facing.right⟩, ⟨2, 1, Facing.right⟩]).updateN c2World 2).1.active = false ∧
     nthUpdateActive (TimeClone.init 1 1
        [⟨1, 1, Facing.right⟩, ⟨2, 1, Facing.right⟩]) c2World 1 = false) := by
  constructor
  · unfold Player.time_travel at hs ⊢
    by_cases h1 : pl.energy ≤ 0
    · rw [if_pos h1] at hs; cases hs
    · rw [if_neg h1] at hs ⊢
      by_cases h2 : steps < 1 ∨ (pl.history.length : Int) ≤ steps
      · rw [if_pos h2] at hs; cases hs
      · rw [if_neg h2] at hs ⊢
        push_neg at h2
        refine ⟨⟨h2.1, h2.2⟩, ?_⟩
        cases hsl : pl.history.take (pl.history.length - steps.toNat) with
        | nil => rw [hsl] at hs; cases hs
        | cons start rest =>
          refine ⟨TimeClone.init start.x start.y (start :: rest), rfl, rfl, rfl, rfl, ?_⟩
          intro e he
          have he2 : some start = some e := he
          cases he2
          exact ⟨rfl, rfl⟩
  · exact ⟨by decide, by decide, by decide, by decide, by decide, by decide⟩

/-- Witness for C2 at the concrete scenario player. -/
theorem c2_witness :
    (c2Player.time_travel 2 []).1 = TTResult.success ∧
    (1 ≤ (2 : Int) ∧ (2 : Int) < (c2Player.history.length : Int)) ∧
    ∃ c, (c2Player.time_travel 2 []).2.2 = [] ++ [c] ∧
      c.history = c2Player.history.take (c2Player.history.length - (2 : Int).toNat) ∧
      c.current_step = 0 ∧ c.active = true ∧
      (∀ e, c.history.head? = some e → c.x = e.x ∧ c.y = e.y) :=
  ⟨by decide, (c2_clone_path c2Player 2 [] (by decide)).1⟩

/--
C3: time_travel checks its failure conditions in a fixed order, is atomic
on failure, and on success spends exactly one energy unit and appends
exactly one clone: noEnergy exactly when energy ≤ 0; invalidStepCount
exactly when energy is positive and steps is outside 1 ≤ steps <
len(history); noHistory exactly when energy is positive, steps is in
range and the slice history[:-steps] is empty (unreachable given the
range check, and proved as the exact branch condition); every failure
leaves the player and the clone list untouched.
-/
theorem c3_time_travel_atomic (pl : Player) (steps : Int) (clones : List TimeClone) :
    ((pl.time_travel steps clones).1 = TTResult.noEnergy ↔ pl.energy ≤ 0) ∧
    ((pl.time_travel steps clones).1 = TTResult.invalidStepCount ↔
      0 < pl.energy ∧ (steps < 1 ∨ (pl.history.length : Int) ≤ steps)) ∧
    ((pl.time_travel steps clones).1 = TTResult.noHistory ↔
      0 < pl.energy ∧ ¬(steps < 1 ∨ (pl.history.length : Int) ≤ steps) ∧
      pl.history.take (pl.history.length - steps.toNat) = []) ∧
    ((pl.time_travel steps clones).1 ≠ TTResult.success →
      (pl.time_travel steps clones).2.1 = pl ∧
      (pl.time_travel steps clones).2.2 = clones) ∧
    ((pl.time_travel steps clones).1 = TTResult.success →
      (pl.time_travel steps clones).2.1 = { pl with energy := pl.energy - 1 } ∧
      ∃ c, (pl.time_travel steps clones).2.2 = clones ++ [c]) := by
  unfold Player.time_travel
  by_cases h1 : pl.energy ≤ 0
  · rw [if_pos h1]
    refine ⟨by simp [h1], by simp [not_lt.mpr h1], by simp [not_lt.mpr h1], fun _ => ⟨rfl, rfl⟩,
      fun hc => by cases hc⟩
  · rw [if_neg h1]
    have h1p : 0 < pl.energy := lt_of_not_le h1
    by_cases h2 : steps < 1 ∨ (pl.history.length : Int) ≤ steps
    · rw [if_pos h2]
      refine ⟨by simp [h1], by simp [h1p, h2], by simp [h2], fun _ => ⟨rfl, rfl⟩,
        fun hc => by cases hc⟩
    · rw [if_neg h2]
      cases hsl : pl.history.take (pl.history.length - steps.toNat) with
      | nil =>
        refine ⟨by simp [h1], by simp [h2], by simp [h1p, h2], fun _ => ⟨rfl, rfl⟩,
          fun hc => by cases hc⟩
      | cons start rest =>
        refine ⟨by simp [h1], by simp [h2], by simp [hsl], fun hns => absurd rfl hns, ?_⟩
        intro _
        exact ⟨rfl, TimeClone.init start.x start.y (start :: rest), rfl⟩

/-- update on an inactive or exhausted clone only clears the active flag
and reports False. -/
lemma update_early (c : TimeClone) (w : World)
    (h : c.active = false ∨ c.history.length ≤ c.current_step) :
    c.update w = ({ c with active := false }, w, false) := by
  unfold TimeClone.update
  rw [if_pos h]

/-- update on a running clone: the cursor advances, the history is frozen,
and both the stored flag and the reported flag are true exactly while the
advanced cursor is still short of the end. -/
lemma update_run (c : TimeClone) (w : World) (ha : c.active = true)
    (hlt : c.current_step < c.history.length) :
    (c.update w).1.history = c.history ∧
    (c.update w).1.current_step = c.current_step + 1 ∧
    (c.update w).1.active = decide (c.current_step + 1 < c.history.length) ∧
    (c.update w).2.2 = decide (c.current_step + 1 < c.history.length) := by
  have hg : ¬(c.active = false ∨ c.history.length ≤ c.current_step) := by
    rw [ha]
    push_neg
    exact ⟨by decide, hlt⟩
  unfold TimeClone.update
  rw [if_neg hg]
  dsimp only
  by_cases hend : c.history.length ≤ c.current_step + 1
  · rw [if_pos hend]
    have hd : decide (c.current_step + 1 < c.history.length) = false :=
      decide_eq_false (not_lt.mpr hend)
    exact ⟨rfl, rfl, by rw [hd], by rw [hd]⟩
  · rw [if_neg hend]
    have hd : decide (c.current_step + 1 < c.history.length) = true :=
      decide_eq_true (not_le.mp hend)
    exact ⟨rfl, rfl, by rw [hd]; exact ha, by rw [hd]; exact ha⟩

/-- State after k iterated updates, for any cursor consistent with the
active flag: the history is frozen, the cursor advances clamped at the
end, and the flag stays true exactly while the cursor is short of the
end. -/
lemma updateN_inv (k : Nat) :
    ∀ (c : TimeClone) (w : World) (j : Nat),
      c.current_step = j → j ≤ c.history.length →
      c.active = decide (j < c.history.length) →
      (c.updateN w k).1.history = c.history ∧
      (c.updateN w k).1.current_step = min (j + k) c.history.length ∧
      (c.updateN w k).1.active = decide (j + k < c.history.length) := by
  induction k with
  | zero =>
    intro c w j hj hjle hact
    refine ⟨rfl, ?_, ?_⟩
    · show c.current_step = _
      rw [hj, Nat.add_zero, Nat.min_eq_left hjle]
    · rw [Nat.add_zero]
      show c.active = _
      exact hact
  | succ k ih =>
    intro c w j hj hjle hact
    have hgoal :
        (TimeClone.updateN (c.update w).1 (c.update w).2.1 k).1.history = c.history ∧
        (TimeClone.updateN (c.update w).1 (c.update w).2.1 k).1.current_step
          = min (j + (k + 1)) c.history.length ∧
        (TimeClone.updateN (c.update w).1 (c.update w).2.1 k).1.active
          = decide (j + (k + 1) < c.history.length) := by
      by_cases hlt : j < c.history.length
      · have ha : c.active = true := by
          rw [hact]
          exact decide_eq_true hlt
        have hrun := update_run c w ha (hj ▸ hlt)
        have hlen : (c.update w).1.history.length = c.history.length := by rw [hrun.1]
        have h1 := ih (c.update w).1 (c.update w).2.1 (j + 1)
          (by rw [hrun.2.1, hj]) (by rw [hlen]; omega)
          (by rw [hrun.2.2.1, hlen, hj])
        refine ⟨by rw [h1.1, hrun.1], ?_, ?_⟩
        · rw [h1.2.1, hlen, show j + 1 + k = j + (k + 1) from by omega]
        · rw [h1.2.2, hlen, show j + 1 + k = j + (k + 1) from by omega]
      · have hje : j = c.history.length := le_antisymm hjle (not_lt.mp hlt)
        have ha : c.active = false := by
          rw [hact]
          exact decide_eq_false hlt
        have hearly := update_early c w (Or.inl ha)
        rw [hearly]
        have h1 := ih ({ c with active := false }) w j hj hjle
          (by show false = _; rw [decide_eq_false hlt])
        refine ⟨h1.1, ?_, ?_⟩
        · rw [h1.2.1]
          show min (j + k) c.history.length = min (j + (k + 1)) c.history.length
          omega
        · rw [h1.2.2]
          show decide (j + k < c.history.length) = decide (j + (k + 1) < c.history.length)
          rw [decide_eq_false (by omega), decide_eq_false (by omega)]
    exact hgoal

/--
C7: a clone with a nonempty path reports inactive exactly after its update
has been called len(path) times: the Bool reported by the call made after
k previous calls is true exactly when k + 1 < len(path), so the first
len(path) - 1 calls report active, and the len(path)-th and every later
call report inactive.
-/
theorem c7_inactive_after_path_length (c : TimeClone) (w : World)
    (hact : c.active = true) (hstep : c.current_step = 0) (hne : c.history ≠ []) :
    ∀ k : Nat, nthUpdateActive c w k = decide (k + 1 < c.history.length) := by
  intro k
  have hlen : 0 < c.history.length := List.length_pos.mpr hne
  obtain ⟨hh, hs, ha⟩ := updateN_inv k c w 0 hstep (Nat.zero_le _)
    (by rw [hact, decide_eq_true hlen])
  unfold nthUpdateActive
  rw [Nat.zero_add] at hs ha
  by_cases hk : k < c.history.length
  · have ha2 : (c.updateN w k).1.active = true := by
      rw [ha]
      exact decide_eq_true hk
    have hs2 : (c.updateN w k).1.current_step < (c.updateN w k).1.history.length := by
      rw [hs, hh, Nat.min_eq_left (Nat.le_of_lt hk)]
      exact hk
    have hrun := update_run (c.updateN w k).1 (c.updateN w k).2 ha2 hs2
    rw [hrun.2.2.2, hh, hs, Nat.min_eq_left (Nat.le_of_lt hk)]
  · have ha2 : (c.updateN w k).1.active = false := by
      rw [ha]
      exact decide_eq_false hk
    have hearly := update_early (c.updateN w k).1 (c.updateN w k).2 (Or.inl ha2)
    rw [hearly]
    show false = _
    rw [decide_eq_false (by omega)]

/-- deactivate_switch keeps the door keys. -/
lemma deactivate_switch_keys (w : World) (p : Pos) :
    (w.deactivate_switch p).doors.map Prod.fst = w.doors.map Prod.fst := by
  unfold World.deactivate_switch
  split
  · exact update_doors_keys _
  · rfl

/-- activate_switch keeps the door keys. -/
lemma activate_switch_keys (w : World) (p : Pos) :
    (w.activate_switch p).doors.map Prod.fst = w.doors.map Prod.fst := by
  unfold World.activate_switch
  split
  · exact update_doors_keys _
  · rfl

/-- deactivate_switch keeps the switch registry. -/
lemma deactivate_switch_switches (w : World) (p : Pos) :
    (w.deactivate_switch p).switches = w.switches := by
  unfold World.deactivate_switch
  split <;> rfl

/-- deactivate_switch does not change tiles away from the doors. -/
lemma deactivate_switch_tile_off (w : World) (p q : Pos) (hq : q ∉ w.doors.map Prod.fst) :
    (w.deactivate_switch p).get_tile_at q = w.get_tile_at q := by
  unfold World.deactivate_switch
  split
  · show (World.update_doors _).get_tile_at q = _
    unfold World.get_tile_at
    rw [update_doors_map_off
      { w with activated_switches := w.activated_switches.erase p } q hq]
    rfl
  · rfl

/-- activate_switch does not change tiles away from the doors. -/
lemma activate_switch_tile_off (w : World) (p q : Pos) (hq : q ∉ w.doors.map Prod.fst) :
    (w.activate_switch p).get_tile_at q = w.get_tile_at q := by
  unfold World.activate_switch
  split
  · show (World.update_doors _).get_tile_at q = _
    unfold World.get_tile_at
    rw [update_doors_map_off
      { w with activated_switches := insert p w.activated_switches } q hq]
    rfl
  · rfl

/-- After deactivate_switch at p, p is never in the active set. -/
lemma deactivate_switch_not_mem (w : World) (p : Pos) :
    p ∉ (w.deactivate_switch p).activated_switches := by
  unfold World.deactivate_switch
  split
  · show p ∉ (World.update_doors _).activated_switches
    rw [update_doors_activated]
    exact Finset.not_mem_erase p _
  · next h => exact h

/-- After activate_switch at a registered switch p, p is in the active
set. -/
lemma activate_switch_mem (w : World) (p : Pos) (hp : p ∈ w.switches) :
    p ∈ (w.activate_switch p).activated_switches := by
  unfold World.activate_switch
  split
  · show p ∈ (World.update_doors _).activated_switches
    rw [update_doors_activated]
    exact Finset.mem_insert_self p _
  · next h =>
    by_cases hm : p ∈ w.activated_switches
    · exact hm
    · exact absurd ⟨hp, hm⟩ h

/--
C10: when the final path entry of a clone lies on a Switch tile (away from
every door position, so that door recomputation cannot rewrite it), the
update call that retires the clone first activates that switch and then
immediately deactivates it: the resulting world is the deactivation
applied after the activation, the activation really marks the switch
active when it is registered, and after the call the switch is not
active.
-/
theorem c10_final_switch_transient (c : TimeClone) (w : World) (e : HistEntry)
    (hact : c.active = true)
    (hfin : c.current_step + 1 = c.history.length)
    (he : c.history.getD c.current_step dfltEntry = e)
    (htile : w.get_tile_at (e.x, e.y) = Tile.Switch)
    (hnd : (e.x, e.y) ∉ w.doors.map Prod.fst) :
    (c.update w).1.active = false ∧
    (c.update w).2.2 = false ∧
    (c.update w).1.x = e.x ∧ (c.update w).1.y = e.y ∧
    ((c.update w).2.1 =
      (((if w.get_tile_at (c.x, c.y) = Tile.Switch then
          w.deactivate_switch (c.x, c.y) else w).activate_switch
            (e.x, e.y)).deactivate_switch (e.x, e.y)) ∧
     ((e.x, e.y) ∈ w.switches →
       (e.x, e.y) ∈ ((if w.get_tile_at (c.x, c.y) = Tile.Switch then
          w.deactivate_switch (c.x, c.y) else w).activate_switch
            (e.x, e.y)).activated_switches)) ∧
    (e.x, e.y) ∉ (c.update w).2.1.activated_switches := by
  have hlt : c.current_step < c.history.length := by omega
  have hg : ¬(c.active = false ∨ c.history.length ≤ c.current_step) := by
    rw [hact]
    push_neg
    exact ⟨by decide, hlt⟩
  have hk1 : (e.x, e.y) ∉ (if w.get_tile_at (c.x, c.y) = Tile.Switch then
      w.deactivate_switch (c.x, c.y) else w).doors.map Prod.fst := by
    by_cases h : w.get_tile_at (c.x, c.y) = Tile.Switch
    · rw [if_pos h, deactivate_switch_keys]
      exact hnd
    · rw [if_neg h]
      exact hnd
  have ht1 : (if w.get_tile_at (c.x, c.y) = Tile.Switch then
      w.deactivate_switch (c.x, c.y) else w).get_tile_at (e.x, e.y) = Tile.Switch := by
    by_cases h : w.get_tile_at (c.x, c.y) = Tile.Switch
    · rw [if_pos h, deactivate_switch_tile_off w _ _ hnd]
      exact htile
    · rw [if_neg h]
      exact htile
  have hsw1 : (if w.get_tile_at (c.x, c.y) = Tile.Switch then
      w.deactivate_switch (c.x, c.y) else w).switches = w.switches := by
    by_cases h : w.get_tile_at (c.x, c.y) = Tile.Switch
    · rw [if_pos h, deactivate_switch_switches]
    · rw [if_neg h]
  have ht2 : ((if w.get_tile_at (c.x, c.y) = Tile.Switch then
      w.deactivate_switch (c.x, c.y) else w).activate_switch
        (e.x, e.y)).get_tile_at (e.x, e.y) = Tile.Switch := by
    rw [activate_switch_tile_off _ _ _ hk1]
    exact ht1
  have hupd : c.update w =
      (({ c with
          facing := e.direction,
          x := e.x,
          y := e.y,
          current_step := c.current_step + 1,
          active := false } : TimeClone),
       ((if w.get_tile_at (c.x, c.y) = Tile.Switch then
          w.deactivate_switch (c.x, c.y) else w).activate_switch
            (e.x, e.y)).deactivate_switch (e.x, e.y),
       false) := by
    unfold TimeClone.update
    rw [if_neg hg]
    dsimp only
    rw [he, if_pos ht1, if_pos (le_of_eq hfin.symm), if_pos ht2]
  refine ⟨by rw [hupd], by rw [hupd], by rw [hupd], by rw [hupd], ⟨by rw [hupd], ?_⟩, ?_⟩
  · intro hm
    refine activate_switch_mem _ _ ?_
    rw [hsw1]
    exact hm
  · rw [hupd]
    exact deactivate_switch_not_mem _ _

/-- Witness for C10 at the concrete one-entry clone ending on a switch. -/
theorem c10_witness :
    (c10Clone.active = true ∧ c10Clone.current_step + 1 = c10Clone.history.length ∧
     c10World.get_tile_at (3, 0) = Tile.Switch ∧
     ((3 : Int), (0 : Int)) ∉ c10World.doors.map Prod.fst ∧
     ((3 : Int), (0 : Int)) ∈ c10World.switches) ∧
    ((c10Clone.update c10World).1.active = false ∧
     ((3 : Int), (0 : Int)) ∉ (c10Clone.update c10World).2.1.activated_switches) :=
  ⟨⟨rfl, rfl, by decide, by decide, by decide⟩,
   (c10_final_switch_transient c10Clone c10World ⟨3, 0, Facing.right⟩ rfl rfl rfl
      (by decide) (by decide)).1,
   (c10_final_switch_transient c10Clone c10World ⟨3, 0, Facing.right⟩ rfl rfl rfl
      (by decide) (by decide)).2.2.2.2.2⟩

/-- A DoorClosed tile whose stored door is closed (or absent) is not
walkable. -/
lemma is_walkable_false_of_closed (w : World) (p : Pos)
    (htile : w.get_tile_at p = Tile.DoorClosed) (hc : doorClosedAt w p = true) :
    w.is_walkable p = false := by
  unfold World.is_walkable
  dsimp only
  rw [htile]
  unfold doorClosedAt at hc
  cases hdg : w.doorGet p with
  | none => simp [hdg]
  | some dd =>
    rw [hdg] at hc
    simp only [Bool.not_eq_eq_eq_not, Bool.not_true] at hc
    simp [hdg, hc]

/-- faceToward only touches the facing field. -/
lemma faceToward_same (pl : Player) (dx dy : Int) :
    (faceToward pl dx dy).x = pl.x ∧ (faceToward pl dx dy).y = pl.y ∧
    (faceToward pl dx dy).keys = pl.keys := by
  unfold faceToward
  split
  · exact ⟨rfl, rfl, rfl⟩
  · exact ⟨rfl, rfl, rfl⟩

/-- record_position only touches the history field. -/
lemma record_position_same (pl : Player) :
    pl.record_position.x = pl.x ∧ pl.record_position.y = pl.y ∧
    pl.record_position.keys = pl.keys := by
  unfold Player.record_position
  cases hl : pl.history.getLast? with
  | none => dsimp only; split <;> exact ⟨rfl, rfl, rfl⟩
  | some e => dsimp only; split <;> exact ⟨rfl, rfl, rfl⟩

/--
C9: a mover holding 0 keys stepping onto the key-locked DoorClosed tile at
(8, 1) is blocked and nothing changes: the move reports failure, the
world (doors, tiles, everything) is returned unchanged, and the player
keeps key count 0 and position.
-/
theorem c9_keyless_door_blocked (pl : Player) (dx dy : Int) (w : World)
    (hkeys : pl.keys = 0)
    (htile : w.get_tile_at (pl.x + dx, pl.y + dy) = Tile.DoorClosed)
    (hdoor : doorClosedAt w (pl.x + dx, pl.y + dy) = true)
    (_hkd : (pl.x + dx, pl.y + dy) = ((8 : Int), (1 : Int))) :
    (pl.move dx dy w).1 = false ∧
    (pl.move dx dy w).2.2 = w ∧
    (pl.move dx dy w).2.1.keys = 0 ∧
    (pl.move dx dy w).2.1.x = pl.x ∧
    (pl.move dx dy w).2.1.y = pl.y := by
  obtain ⟨hrx, hry, hrk⟩ := record_position_same pl
  obtain ⟨hfx, hfy, hfk⟩ := faceToward_same pl.record_position dx dy
  have hx : (faceToward pl.record_position dx dy).x = pl.x := by rw [hfx, hrx]
  have hy : (faceToward pl.record_position dx dy).y = pl.y := by rw [hfy, hry]
  have hk : (faceToward pl.record_position dx dy).keys = 0 := by rw [hfk, hrk, hkeys]
  have hw : w.is_walkable (pl.x + dx, pl.y + dy) = false :=
    is_walkable_false_of_closed w _ htile hdoor
  have hmove : pl.move dx dy w = (false, faceToward pl.record_position dx dy, w) := by
    unfold Player.move
    dsimp only
    rw [hx, hy, hw, if_neg (by decide : ¬((false : Bool) = true)), if_pos htile,
      if_neg (by
        rintro ⟨_, hpos⟩
        rw [hk] at hpos
        exact absurd hpos (by decide))]
  rw [hmove]
  exact ⟨rfl, rfl, hk, hx, hy⟩

/-- Witness for C9 at the concrete keyless player and closed key door. -/
theorem c9_witness :
    (c9Player.keys = 0 ∧
     c9World.get_tile_at (c9Player.x + 1, c9Player.y + 0) = Tile.DoorClosed ∧
     doorClosedAt c9World (c9Player.x + 1, c9Player.y + 0) = true ∧
     (c9Player.x + 1, c9Player.y + 0) = ((8 : Int), (1 : Int))) ∧
    ((c9Player.move 1 0 c9World).1 = false ∧
     (c9Player.move 1 0 c9World).2.2 = c9World ∧
     (c9Player.move 1 0 c9World).2.1.keys = 0 ∧
     (c9Player.move 1 0 c9World).2.1.x = c9Player.x ∧
     (c9Player.move 1 0 c9World).2.1.y = c9Player.y) :=
  ⟨⟨by decide, by decide, by decide, by decide⟩,
   c9_keyless_door_blocked c9Player 1 0 c9World (by decide) (by decide) (by decide)
     (by decide)⟩

/-- Witness for C7: the second call on the two-entry clone reports
inactive. -/
theorem c7_witness :
    (c7Clone.active = true ∧ c7Clone.current_step = 0 ∧ c7Clone.history ≠ []) ∧
    nthUpdateActive c7Clone c2World 1 = decide (1 + 1 < c7Clone.history.length) :=
  ⟨⟨rfl, rfl, by decide⟩,
   c7_inactive_after_path_length c7Clone c2World rfl rfl (by decide) 1⟩

/-- Witness for C3: with zero energy the call fails with noEnergy and
mutates nothing; the scenario player call succeeds and spends one energy. -/
theorem c3_witness :
    ((c3Player.time_travel 2 []).1 = TTResult.noEnergy ∧
     (c3Player.time_travel 2 []).2.1 = c3Player ∧
     (c3Player.time_travel 2 []).2.2 = []) ∧
    ((c2Player.time_travel 2 []).2.1 = { c2Player with energy := c2Player.energy - 1 } ∧
     ∃ c, (c2Player.time_travel 2 []).2.2 = [] ++ [c]) :=
  ⟨⟨(c3_time_travel_atomic c3Player 2 []).1.mpr (by decide),
    ((c3_time_travel_atomic c3Player 2 []).2.2.2.1 (by decide)).1,
    ((c3_time_travel_atomic c3Player 2 []).2.2.2.1 (by decide)).2⟩,
   (c3_time_travel_atomic c2Player 2 []).2.2.2.2 (by decide)⟩

/-- Witness for the amended C5 at the concrete level data. -/
theorem c5_witness :
    ((DPos, (⟨∅, false⟩ : DoorData)) ∈ (emptyWorld.load_from_data exTuple).doors ∧
     (DPos, (⟨∅, false⟩ : DoorData)) ∉ emptyWorld.doors) ∧
    ((⟨∅, false⟩ : DoorData).required_switches = ∅ ∧
     (⟨∅, false⟩ : DoorData).is_open = false) :=
  ⟨⟨by decide, by decide⟩,
   c5_amended_no_validation emptyWorld exTuple (DPos, ⟨∅, false⟩) (by decide) (by decide)⟩

/-- The vertical line scan is true exactly when every scanned tile is
transparent. -/
lemma scanTransparent_v (w : World) :
    ∀ (n : Nat) (x y0 : Int),
      scanTransparent w (x, y0) (0, 1) n = true ↔
        ∀ i : Nat, i < n → w.is_transparent (x, y0 + (i : Int)) = true := by
  intro n
  induction n with
  | zero =>
    intro x y0
    constructor
    · intro _ i hi
      exact absurd hi (Nat.not_lt_zero i)
    · intro _
      rfl
  | succ n ih =>
    intro x y0
    show (w.is_transparent (x, y0) && scanTransparent w (x + 0, y0 + 1) (0, 1) n) = true ↔ _
    rw [Bool.and_eq_true, show x + (0 : Int) = x from Int.add_zero x, ih x (y0 + 1)]
    constructor
    · rintro ⟨h0, hrest⟩ i hi
      cases i with
      | zero => simpa using h0
      | succ j =>
        have hh := hrest j (by omega)
        have harg : y0 + 1 + (j : Int) = y0 + ((j + 1 : Nat) : Int) := by push_cast; ring
        rwa [harg] at hh
    · intro h
      refine ⟨?_, ?_⟩
      · simpa using h 0 (by omega)
      · intro j hj
        have hh := h (j + 1) (by omega)
        have harg : y0 + 1 + (j : Int) = y0 + ((j + 1 : Nat) : Int) := by push_cast; ring
        rwa [harg]

/-- The horizontal line scan is true exactly when every scanned tile is
transparent. -/
lemma scanTransparent_h (w : World) :
    ∀ (n : Nat) (x0 y : Int),
      scanTransparent w (x0, y) (1, 0) n = true ↔
        ∀ i : Nat, i < n → w.is_transparent (x0 + (i : Int), y) = true := by
  intro n
  induction n with
  | zero =>
    intro x0 y
    constructor
    · intro _ i hi
      exact absurd hi (Nat.not_lt_zero i)
    · intro _
      rfl
  | succ n ih =>
    intro x0 y
    show (w.is_transparent (x0, y) && scanTransparent w (x0 + 1, y + 0) (1, 0) n) = true ↔ _
    rw [Bool.and_eq_true, show y + (0 : Int) = y from Int.add_zero y, ih (x0 + 1) y]
    constructor
    · rintro ⟨h0, hrest⟩ i hi
      cases i with
      | zero => simpa using h0
      | succ j =>
        have hh := hrest j (by omega)
        have harg : x0 + 1 + (j : Int) = x0 + ((j + 1 : Nat) : Int) := by push_cast; ring
        rwa [harg] at hh
    · intro h
      refine ⟨?_, ?_⟩
      · simpa using h 0 (by omega)
      · intro j hj
        have hh := h (j + 1) (by omega)
        have harg : x0 + 1 + (j : Int) = x0 + ((j + 1 : Nat) : Int) := by push_cast; ring
        rwa [harg]

/--
C8: can_see_player is true exactly when the mover shares the guard row or
column, the squared Euclidean distance is within the squared view
distance, and every tile on the inclusive straight segment between them
is transparent; in particular an off-axis mover is never seen; and in the
concrete scenario the wall at (5, 7) blocks the guard at (5, 5) from the
mover at (5, 8) while the all-floor world does not.
-/
theorem c8_can_see_iff (g : Guard) (w : World) (px py : Int) :
    (g.can_see_player w px py = true ↔
      ((g.x = px ∨ g.y = py) ∧
       (px - g.x) ^ 2 + (py - g.y) ^ 2 ≤ g.view_distance ^ 2 ∧
       (∀ q : Pos, onSight g.x g.y px py q → w.is_transparent q = true))) ∧
    ((⟨5, 5, 5⟩ : Guard).can_see_player c8WallWorld 5 8 = false ∧
     (⟨5, 5, 5⟩ : Guard).can_see_player c8OpenWorld 5 8 = true) := by
  refine ⟨?_, by decide, by decide⟩
  unfold Guard.can_see_player
  by_cases hd : g.view_distance ^ 2 < (px - g.x) ^ 2 + (py - g.y) ^ 2
  · rw [if_pos hd]
    constructor
    · intro h
      cases h
    · rintro ⟨_, hle, _⟩
      exact absurd hd (not_lt.mpr hle)
  · rw [if_neg hd]
    have hle := not_lt.mp hd
    by_cases hx : g.x = px
    · rw [if_pos hx, scanTransparent_v]
      constructor
      · intro h
        refine ⟨Or.inl hx, hle, ?_⟩
        rintro ⟨q1, q2⟩ hq
        have hq' : q1 = g.x ∧ min g.y py ≤ q2 ∧ q2 ≤ max g.y py := by
          rcases hq with ⟨_, h1, h2, h3⟩ | ⟨h1, h2, h3, h4⟩
          · exact ⟨h1, h2, h3⟩
          · refine ⟨by omega, by omega, by omega⟩
        obtain ⟨hq1, hq2, hq3⟩ := hq'
        have hi : (q2 - min g.y py).toNat < (max g.y py - min g.y py).toNat + 1 := by
          omega
        have hh := h _ hi
        have harg : min g.y py + ((q2 - min g.y py).toNat : Int) = q2 := by omega
        rw [harg] at hh
        rw [hq1]
        exact hh
      · rintro ⟨_, _, htr⟩ i hi
        exact htr (g.x, min g.y py + (i : Int)) (Or.inl ⟨hx, rfl, by omega, by omega⟩)
    · rw [if_neg hx]
      by_cases hy : g.y = py
      · rw [if_pos hy, scanTransparent_h]
        constructor
        · intro h
          refine ⟨Or.inr hy, hle, ?_⟩
          rintro ⟨q1, q2⟩ hq
          have hq' : q2 = g.y ∧ min g.x px ≤ q1 ∧ q1 ≤ max g.x px := by
            rcases hq with ⟨h1, h2, h3, h4⟩ | ⟨_, h2, h3, h4⟩
            · exact absurd h1 hx
            · exact ⟨h2, h3, h4⟩
          obtain ⟨hq2, hq1, hq3⟩ := hq'
          have hi : (q1 - min g.x px).toNat < (max g.x px - min g.x px).toNat + 1 := by
            omega
          have hh := h _ hi
          have harg : min g.x px + ((q1 - min g.x px).toNat : Int) = q1 := by omega
          rw [harg] at hh
          rw [hq2]
          exact hh
        · rintro ⟨_, _, htr⟩ i hi
          exact htr (min g.x px + (i : Int), g.y) (Or.inr ⟨hy, rfl, by omega, by omega⟩)
      · rw [if_neg hy]
        constructor
        · intro h
          cases h
        · rintro ⟨hor, _, _⟩
          rcases hor with h | h
          · exact absurd h hx
          · exact absurd h hy
